import Mathlib

/-!
Verification of the DLP (Data Loss Prevention) engine of the EDR agent,
a shallow embedding of `src/agent/src/dlp.rs`.

Buffers are modelled as `List Nat` (byte values), machine `u32` arithmetic
as `Nat` reduced modulo `2 ^ 32`, the `DashMap` fingerprint store as an
association list with insert-replace semantics, and the two hash algorithms
(BLAKE3 from the `blake3` crate, SHA-256 from the `sha2` crate) as
executable Lean functions producing the byte sequence of the digest,
hex-encoded exactly as `hex::encode` does.
-/

set_option maxRecDepth 4096

namespace EdrDlp

/-! ## 32-bit word arithmetic helpers -/

/-- The `u32` modulus. -/
def U32 : Nat := 4294967296

/-- Wrapping 32-bit addition. -/
def add32 (a b : Nat) : Nat := (a + b) % U32

/-- Bitwise xor; on inputs below `2 ^ 32` the result stays below `2 ^ 32`. -/
def xor32 (a b : Nat) : Nat := a ^^^ b

/-- Bitwise and. -/
def and32 (a b : Nat) : Nat := a &&& b

/-- Right rotation of a 32-bit word by `n` places (`0 < n < 32`). -/
def rotr32 (x n : Nat) : Nat := ((x >>> n) ||| (x <<< (32 - n))) % U32

/-- Read a little-endian 32-bit word from four bytes. -/
def wordLE (b0 b1 b2 b3 : Nat) : Nat :=
  b0 + b1 * 256 + b2 * 65536 + b3 * 16777216

/-- Split a byte list into little-endian 32-bit words, zero-padding a
ragged tail (callers always pass a multiple of four bytes). -/
def bytesToWordsLE : List Nat → List Nat
  | b0 :: b1 :: b2 :: b3 :: rest => wordLE b0 b1 b2 b3 :: bytesToWordsLE rest
  | [b0, b1, b2] => [wordLE b0 b1 b2 0]
  | [b0, b1] => [wordLE b0 b1 0 0]
  | [b0] => [wordLE b0 0 0 0]
  | [] => []

/-- Serialize 32-bit words to bytes, little-endian. -/
def wordsToBytesLE : List Nat → List Nat
  | [] => []
  | w :: rest =>
    w % 256 :: (w >>> 8) % 256 :: (w >>> 16) % 256 :: (w >>> 24) % 256 ::
      wordsToBytesLE rest

/-- Serialize 32-bit words to bytes, big-endian. -/
def wordsToBytesBE : List Nat → List Nat
  | [] => []
  | w :: rest =>
    (w >>> 24) % 256 :: (w >>> 16) % 256 :: (w >>> 8) % 256 :: w % 256 ::
      wordsToBytesBE rest

/-! ## BLAKE3 (the `blake3` crate's hash with the default 32-byte output) -/

/-- BLAKE3 initialization vector (the SHA-256 IV words: fractional parts
of the square roots of the first eight primes, written in decimal). -/
def blake3IV : List Nat :=
  [1779033703, 3144134277, 1013904242, 2773480762,
   1359893119, 2600822924, 528734635, 1541459225]

/-- Domain-separation flag: first block of a chunk. -/
def CHUNK_START : Nat := 1
/-- Domain-separation flag: last block of a chunk. -/
def CHUNK_END : Nat := 2
/-- Domain-separation flag: parent node in the chunk tree. -/
def PARENT : Nat := 4
/-- Domain-separation flag: root compression. -/
def ROOT : Nat := 8

/-- The BLAKE3 quarter-round `g`, acting on state positions `a b c d`
with message words `mx my`. -/
def gMix (st : List Nat) (a b c d mx my : Nat) : List Nat :=
  let va := add32 (add32 (st.getD a 0) (st.getD b 0)) mx
  let vd := rotr32 (xor32 (st.getD d 0) va) 16
  let vc := add32 (st.getD c 0) vd
  let vb := rotr32 (xor32 (st.getD b 0) vc) 12
  let va2 := add32 (add32 va vb) my
  let vd2 := rotr32 (xor32 vd va2) 8
  let vc2 := add32 vc vd2
  let vb2 := rotr32 (xor32 vb vc2) 7
  (((st.set a va2).set b vb2).set c vc2).set d vd2

/-- One full BLAKE3 round: four column mixes then four diagonal mixes. -/
def blake3Round (st m : List Nat) : List Nat :=
  let s1 := gMix st 0 4 8 12 (m.getD 0 0) (m.getD 1 0)
  let s2 := gMix s1 1 5 9 13 (m.getD 2 0) (m.getD 3 0)
  let s3 := gMix s2 2 6 10 14 (m.getD 4 0) (m.getD 5 0)
  let s4 := gMix s3 3 7 11 15 (m.getD 6 0) (m.getD 7 0)
  let s5 := gMix s4 0 5 10 15 (m.getD 8 0) (m.getD 9 0)
  let s6 := gMix s5 1 6 11 12 (m.getD 10 0) (m.getD 11 0)
  let s7 := gMix s6 2 7 8 13 (m.getD 12 0) (m.getD 13 0)
  gMix s7 3 4 9 14 (m.getD 14 0) (m.getD 15 0)

/-- The BLAKE3 message permutation applied between rounds. -/
def blake3Permute (m : List Nat) : List Nat :=
  [m.getD 2 0, m.getD 6 0, m.getD 3 0, m.getD 10 0,
   m.getD 7 0, m.getD 0 0, m.getD 4 0, m.getD 13 0,
   m.getD 1 0, m.getD 11 0, m.getD 12 0, m.getD 5 0,
   m.getD 9 0, m.getD 14 0, m.getD 15 0, m.getD 8 0]

/-- The BLAKE3 compression function: seven rounds over a 16-word state,
returning the full 16-word output (lower half feeds forward the state,
upper half feeds forward the chaining value). -/
def compress3 (cv block : List Nat) (counter blockLen flags : Nat) : List Nat :=
  let st0 := cv.take 8 ++ blake3IV.take 4 ++
    [counter % U32, (counter / U32) % U32, blockLen, flags]
  let s1 := blake3Round st0 block
  let m1 := blake3Permute block
  let s2 := blake3Round s1 m1
  let m2 := blake3Permute m1
  let s3 := blake3Round s2 m2
  let m3 := blake3Permute m2
  let s4 := blake3Round s3 m3
  let m4 := blake3Permute m3
  let s5 := blake3Round s4 m4
  let m5 := blake3Permute m4
  let s6 := blake3Round s5 m5
  let m6 := blake3Permute m5
  let s7 := blake3Round s6 m6
  let lower := (List.range 8).map (fun i => xor32 (s7.getD i 0) (s7.getD (i + 8) 0))
  let upper := (List.range 8).map (fun i => xor32 (s7.getD (i + 8) 0) (cv.getD i 0))
  lower ++ upper

/-- A pending BLAKE3 compression: the inputs of the final compression of a
chunk or parent node, kept uncompressed so the `ROOT` flag can still be
added when the node turns out to be the root. -/
structure B3Output where
  inputCV : List Nat
  blockWords : List Nat
  counter : Nat
  blockLen : Nat
  flags : Nat

/-- Chaining value of a pending compression (first 8 output words). -/
def chainCV (o : B3Output) : List Nat :=
  (compress3 o.inputCV o.blockWords o.counter o.blockLen o.flags).take 8

/-- Root finalization: rerun the final compression with the `ROOT` flag and
serialize the first 8 words little-endian (the default 32-byte digest). -/
def rootBytes (o : B3Output) : List Nat :=
  wordsToBytesLE
    ((compress3 o.inputCV o.blockWords o.counter o.blockLen (o.flags ||| ROOT)).take 8)

/-- Compress the 64-byte blocks of one chunk (at most 1024 bytes), leaving
the last block pending. `isFirst` tracks the `CHUNK_START` flag. -/
def chunkCompressBlocks (cv : List Nat) (counter : Nat) (isFirst : Bool)
    (bytes : List Nat) : B3Output :=
  if h : bytes.length ≤ 64 then
    { inputCV := cv, blockWords := bytesToWordsLE bytes, counter := counter,
      blockLen := bytes.length,
      flags := (if isFirst then CHUNK_START else 0) ||| CHUNK_END }
  else
    let cv2 := (compress3 cv (bytesToWordsLE (bytes.take 64)) counter 64
      (if isFirst then CHUNK_START else 0)).take 8
    chunkCompressBlocks cv2 counter false (bytes.drop 64)
termination_by bytes.length
decreasing_by
  simp only [List.length_drop]
  omega

/-- Split the input into 1024-byte chunks; the empty input is one empty
chunk. -/
def splitChunks (input : List Nat) : List (List Nat) :=
  if h : input.length ≤ 1024 then [input]
  else input.take 1024 :: splitChunks (input.drop 1024)
termination_by input.length
decreasing_by
  simp only [List.length_drop]
  omega

/-- Chaining values of a list of chunks, numbering chunks from `counter`. -/
def chunkCVs : List (List Nat) → Nat → List (List Nat)
  | [], _ => []
  | c :: rest, counter =>
    chainCV (chunkCompressBlocks blake3IV counter true c) :: chunkCVs rest (counter + 1)

/-- Largest power of two that is at most `m` (for `m ≥ 1`). -/
def largestPow2Le (m : Nat) : Nat :=
  if m < 2 then 1 else 2 * largestPow2Le (m / 2)
termination_by m
decreasing_by omega

/-- Pending compression of a parent node over two child chaining values. -/
def parentOutput (l r : List Nat) : B3Output :=
  { inputCV := blake3IV, blockWords := l ++ r, counter := 0, blockLen := 64,
    flags := PARENT }

/-- Chaining value of the BLAKE3 tree over a list of chunk chaining values;
the left subtree takes the largest power of two of chunks strictly below
the total. The fuel is an upper bound on the recursion depth; `length cvs`
always suffices. -/
def subtreeCV : Nat → List (List Nat) → List Nat
  | _, [] => blake3IV
  | _, [cv] => cv
  | 0, cvs => cvs.headD blake3IV
  | fuel + 1, cvs =>
    let l := largestPow2Le (cvs.length - 1)
    chainCV (parentOutput (subtreeCV fuel (cvs.take l)) (subtreeCV fuel (cvs.drop l)))

/-- The BLAKE3 hash (default 32-byte output) of a byte list. -/
def blake3Hash (input : List Nat) : List Nat :=
  match splitChunks input with
  | [c] => rootBytes (chunkCompressBlocks blake3IV 0 true c)
  | cs =>
    let cvs := chunkCVs cs 0
    let l := largestPow2Le (cvs.length - 1)
    rootBytes (parentOutput (subtreeCV cvs.length (cvs.take l))
      (subtreeCV cvs.length (cvs.drop l)))

/-! ## SHA-256 (the `sha2` crate's `Sha256`) -/

/-- SHA-256 round constants (the fractional parts of the cube roots of
the first 64 primes, written in decimal). -/
def sha256K : List Nat :=
  [1116352408, 1899447441, 3049323471, 3921009573, 961987163, 1508970993,
   2453635748, 2870763221, 3624381080, 310598401, 607225278, 1426881987,
   1925078388, 2162078206, 2614888103, 3248222580, 3835390401, 4022224774,
   264347078, 604807628, 770255983, 1249150122, 1555081692, 1996064986,
   2554220882, 2821834349, 2952996808, 3210313671, 3336571891, 3584528711,
   113926993, 338241895, 666307205, 773529912, 1294757372, 1396182291,
   1695183700, 1986661051, 2177026350, 2456956037, 2730485921, 2820302411,
   3259730800, 3345764771, 3516065817, 3600352804, 4094571909, 275423344,
   430227734, 506948616, 659060556, 883997877, 958139571, 1322822218,
   1537002063, 1747873779, 1955562222, 2024104815, 2227730452, 2361852424,
   2428436474, 2756734187, 3204031479, 3329325298]

/-- SHA-256 initial hash value (the same eight words as `blake3IV`). -/
def sha256IV : List Nat := blake3IV

/-- Read big-endian 32-bit words from bytes (input length a multiple of
four after padding; ragged tails are zero-padded for totality). -/
def bytesToWordsBE : List Nat → List Nat
  | b0 :: b1 :: b2 :: b3 :: rest =>
    (((b0 * 256 + b1) * 256 + b2) * 256 + b3) :: bytesToWordsBE rest
  | [b0, b1, b2] => [((b0 * 256 + b1) * 256 + b2) * 256]
  | [b0, b1] => [(b0 * 256 + b1) * 65536]
  | [b0] => [b0 * 16777216]
  | [] => []

/-- A 64-bit big-endian length field. -/
def word64BE (n : Nat) : List Nat :=
  [(n >>> 56) % 256, (n >>> 48) % 256, (n >>> 40) % 256, (n >>> 32) % 256,
   (n >>> 24) % 256, (n >>> 16) % 256, (n >>> 8) % 256, n % 256]

/-- Merkle–Damgård padding: a `0x80` byte, zeros, and the bit length,
reaching a multiple of 64 bytes. -/
def sha256Pad (msg : List Nat) : List Nat :=
  let padZeros := (64 - (msg.length + 9) % 64) % 64
  msg ++ [0x80] ++ List.replicate padZeros 0 ++ word64BE (msg.length * 8)

/-- σ₀ of the message schedule. -/
def smallSigma0 (x : Nat) : Nat := xor32 (xor32 (rotr32 x 7) (rotr32 x 18)) (x >>> 3)

/-- σ₁ of the message schedule. -/
def smallSigma1 (x : Nat) : Nat := xor32 (xor32 (rotr32 x 17) (rotr32 x 19)) (x >>> 10)

/-- Σ₀ of the round function. -/
def bigSigma0 (x : Nat) : Nat := xor32 (xor32 (rotr32 x 2) (rotr32 x 13)) (rotr32 x 22)

/-- Σ₁ of the round function. -/
def bigSigma1 (x : Nat) : Nat := xor32 (xor32 (rotr32 x 6) (rotr32 x 11)) (rotr32 x 25)

/-- Extend the 16 block words to the 64-word message schedule. -/
def sha256Schedule (block : List Nat) : List Nat :=
  (List.range 48).foldl
    (fun w _ =>
      w ++ [(smallSigma1 (w.getD (w.length - 2) 0) + w.getD (w.length - 7) 0 +
        smallSigma0 (w.getD (w.length - 15) 0) + w.getD (w.length - 16) 0) % U32])
    block

/-- One SHA-256 compression over a 16-word block. -/
def sha256CompressBlock (h block : List Nat) : List Nat :=
  let w := sha256Schedule block
  let step := fun (st : List Nat) (i : Nat) =>
    match st with
    | [a, b, c, d, e, f, g, hh] =>
      let ch := xor32 (and32 e f) (and32 (xor32 e 4294967295) g)
      let maj := xor32 (xor32 (and32 a b) (and32 a c)) (and32 b c)
      let t1 := (hh + bigSigma1 e + ch + sha256K.getD i 0 + w.getD i 0) % U32
      let t2 := (bigSigma0 a + maj) % U32
      [(t1 + t2) % U32, a, b, c, (d + t1) % U32, e, f, g]
    | other => other
  let fin := (List.range 64).foldl step h
  List.zipWith (fun x y => (x + y) % U32) h fin

/-- Fold the compression over all 64-byte blocks of the padded message. -/
def sha256Blocks (h : List Nat) (msg : List Nat) : List Nat :=
  if hm : msg.length = 0 then h
  else sha256Blocks (sha256CompressBlock h (bytesToWordsBE (msg.take 64))) (msg.drop 64)
termination_by msg.length
decreasing_by
  simp only [List.length_drop]
  omega

/-- The SHA-256 digest (32 bytes) of a byte list. -/
def sha256Hash (msg : List Nat) : List Nat :=
  wordsToBytesBE (sha256Blocks sha256IV (sha256Pad msg))

/-! ## Hex encoding (`hex::encode`, lowercase) -/

/-- Lowercase hexadecimal digit of a value below 16. -/
def hexDigit (n : Nat) : Char :=
  if n < 10 then Char.ofNat (48 + n) else Char.ofNat (87 + n)

/-- Lowercase hexadecimal rendering of a byte list, as `hex::encode`. -/
def hexEncode (bytes : List Nat) : String :=
  String.mk (bytes.foldr (fun b acc => hexDigit (b / 16) :: hexDigit (b % 16) :: acc) [])

/-! ## DLP engine data model (`src/agent/src/dlp.rs`) -/

/-- Chunk size for rolling hash fingerprinting (in bytes). -/
def CHUNK_SIZE : Nat := 64

/-- Minimum buffer size to trigger DLP scanning. -/
def MIN_SCAN_SIZE : Nat := 128

/-- DLP match severity levels. -/
inductive Severity where
  | Low
  | Medium
  | High
  | Critical
deriving DecidableEq, Repr

/-- Represents a matched sensitive data pattern. -/
structure DlpMatch where
  rule_id : String
  severity : Severity
  matched_hash : String
  offset : Nat
deriving DecidableEq, Repr

/-- The fingerprint store: the `DashMap` from digest strings to
`(rule_id, severity)` pairs, embedded as an association list whose keys
are kept distinct by insert-replace. -/
def FpStore : Type := List (String × (String × Severity))

/-- `DashMap::insert`: add or replace the binding of key `k`. -/
def mapInsert (m : FpStore) (k : String) (v : String × Severity) : FpStore :=
  match m with
  | [] => [(k, v)]
  | (k1, v1) :: rest =>
    if k1 = k then (k, v) :: rest else (k1, v1) :: mapInsert rest k v

/-- `DashMap::get`: look up the binding of key `k`. -/
def mapLookup (m : FpStore) (k : String) : Option (String × Severity) :=
  match m with
  | [] => none
  | (k1, v1) :: rest => if k1 = k then some v1 else mapLookup rest k

/-- `DashMap::len`: the number of entries. -/
def mapLen (m : FpStore) : Nat := m.length

/-- High-performance DLP engine using Exact Data Match (EDM). -/
structure DlpEngine where
  /-- Fingerprint hashset: maps BLAKE3 hash to (rule_id, severity). -/
  fingerprints : FpStore
  /-- Toggle for different hashing algorithms. -/
  use_blake3 : Bool

/-- `DlpEngine::new`: empty fingerprint database, BLAKE3 selected. -/
def DlpEngine.new : DlpEngine :=
  { fingerprints := [], use_blake3 := true }

/-- `DlpEngine::default` delegates to `new`. -/
def DlpEngine.deflt : DlpEngine := DlpEngine.new

/-- `DlpEngine::add_fingerprint`: insert one fingerprint. In Rust the
method takes `&self` and mutates the shared `DashMap`; here it returns
the updated engine. -/
def add_fingerprint (e : DlpEngine) (hash : String) (rule_id : String)
    (severity : Severity) : DlpEngine :=
  { e with fingerprints := mapInsert e.fingerprints hash (rule_id, severity) }

/-- `DlpEngine::fingerprint_count`. -/
def fingerprint_count (e : DlpEngine) : Nat := mapLen e.fingerprints

/-- `DlpEngine::load_fingerprints_from_policy`: the policy path is unused
(`_policy_path`); the skeleton inserts two dummy fingerprints and returns
`Ok(())`. The updated engine stands in for the mutation of `&self`. -/
def load_fingerprints_from_policy (e : DlpEngine) (policy_path : String) :
    Except String DlpEngine :=
  Except.ok
    (add_fingerprint
      (add_fingerprint e "deadbeef0000" "TEST_SSN" Severity.High)
      "cafebabe0000" "TEST_CCN" Severity.Critical)

/-- `DlpEngine::hash_chunk`: BLAKE3 when `use_blake3` is set, SHA-256
otherwise, hex-encoded. -/
def hash_chunk (e : DlpEngine) (chunk : List Nat) : String :=
  if e.use_blake3 then hexEncode (blake3Hash chunk) else hexEncode (sha256Hash chunk)

/-- The rolling-window loop of `DlpEngine::scan_buffer`: starting at
`offset`, hash each `CHUNK_SIZE`-byte window, look the digest up, record
a match on a hit, and advance by `CHUNK_SIZE / 2` while a full window
fits. The `while` loop is embedded with a fuel argument; `buffer.length`
fuel always suffices because each iteration advances the offset by 32. -/
def scanFrom (e : DlpEngine) (buffer : List Nat) : Nat → Nat → List DlpMatch
  | 0, _ => []
  | fuel + 1, offset =>
    if offset + CHUNK_SIZE ≤ buffer.length then
      let chunk := (buffer.drop offset).take CHUNK_SIZE
      let chunk_hash := hash_chunk e chunk
      match mapLookup e.fingerprints chunk_hash with
      | some rs =>
        { rule_id := rs.1, severity := rs.2, matched_hash := chunk_hash,
          offset := offset } :: scanFrom e buffer fuel (offset + CHUNK_SIZE / 2)
      | none => scanFrom e buffer fuel (offset + CHUNK_SIZE / 2)
    else []

/-- `DlpEngine::scan_buffer`: reject buffers below `MIN_SCAN_SIZE`, then
run the rolling-window loop from offset 0. -/
def scan_buffer (e : DlpEngine) (buffer : List Nat) : List DlpMatch :=
  if buffer.length < MIN_SCAN_SIZE then [] else scanFrom e buffer buffer.length 0

/-- `DlpEngine::scan_file`: the skeleton ignores the path and returns
`Ok(Vec::new())`. -/
def scan_file (e : DlpEngine) (file_path : String) : Except String (List DlpMatch) :=
  Except.ok []

/-- `DlpEngine::should_scan`: reject buffers below `MIN_SCAN_SIZE`, then
reject buffers whose count of bytes other than `0` and the space byte is
below `MIN_SCAN_SIZE / 2`. -/
def should_scan (e : DlpEngine) (buffer : List Nat) : Bool :=
  if buffer.length < MIN_SCAN_SIZE then false
  else
    let non_zero_bytes := (buffer.filter (fun b => b != 0 && b != 32)).length
    if non_zero_bytes < MIN_SCAN_SIZE / 2 then false else true

/-- In Rust `scan_buffer` borrows the engine immutably (`&self`); the
state-passing rendering of the call therefore returns the engine
alongside the matches. -/
def scan_buffer_call (e : DlpEngine) (buffer : List Nat) :
    List DlpMatch × DlpEngine :=
  (scan_buffer e buffer, e)

/-- State-passing rendering of a `should_scan` call (`&self` receiver). -/
def should_scan_call (e : DlpEngine) (buffer : List Nat) : Bool × DlpEngine :=
  (should_scan e buffer, e)

/-! ## Spec-side definitions

These follow the specification's words, for comparison with the embedded
code: windows of length `CHUNK_SIZE` starting at offset 0, advancing by
`CHUNK_SIZE / 2` while `offset + CHUNK_SIZE ≤ len`, and one candidate
match per window. -/

/-- Spec-side window-start generation: from `offset`, emit the offset and
advance by `CHUNK_SIZE / 2` while a full window fits in `len` bytes. The
fuel bounds the iteration; `len` fuel always suffices. -/
def offsetsFrom (len : Nat) : Nat → Nat → List Nat
  | 0, _ => []
  | fuel + 1, offset =>
    if offset + CHUNK_SIZE ≤ len then
      offset :: offsetsFrom len fuel (offset + CHUNK_SIZE / 2)
    else []

/-- Spec-side: all window start offsets of a buffer of length `len`. -/
def specWindowStarts (len : Nat) : List Nat := offsetsFrom len len 0

/-- Spec-side: the candidate match of the window starting at `off` —
`some` exactly when the window's digest is in the store, carrying the
stored rule and severity, the digest, and the window's start offset. -/
def specMatchAt (e : DlpEngine) (buffer : List Nat) (off : Nat) : Option DlpMatch :=
  match mapLookup e.fingerprints (hash_chunk e ((buffer.drop off).take CHUNK_SIZE)) with
  | some rs =>
    some { rule_id := rs.1, severity := rs.2,
           matched_hash := hash_chunk e ((buffer.drop off).take CHUNK_SIZE),
           offset := off }
  | none => none

/-- Spec-side scan result: one candidate per generated window, in window
order, hits kept and misses dropped. -/
def specScanMatches (e : DlpEngine) (buffer : List Nat) : List DlpMatch :=
  (specWindowStarts buffer.length).filterMap (specMatchAt e buffer)

/-- An engine whose store holds exactly the digest of the 64-byte all-zero
window (inserted via the engine's own hash of that window). -/
def c2Engine : DlpEngine :=
  add_fingerprint DlpEngine.new (hash_chunk DlpEngine.new (List.replicate 64 0))
    "RULE_ZERO_WINDOW" Severity.Low

/-! ## Store lemmas -/

theorem mapLookup_mapInsert_self (m : FpStore) (k : String) (v : String × Severity) :
    mapLookup (mapInsert m k v) k = some v := by
  induction m with
  | nil => simp [mapInsert, mapLookup]
  | cons hd tl ih =>
    obtain ⟨k1, v1⟩ := hd
    by_cases h : k1 = k
    · simp [mapInsert, mapLookup, h]
    · simp [mapInsert, mapLookup, h, ih]

theorem mapLookup_mapInsert_ne (m : FpStore) (k1 k2 : String) (v : String × Severity)
    (h : k1 ≠ k2) : mapLookup (mapInsert m k1 v) k2 = mapLookup m k2 := by
  induction m with
  | nil => simp [mapInsert, mapLookup, h]
  | cons hd tl ih =>
    obtain ⟨k3, v3⟩ := hd
    by_cases h3 : k3 = k1
    · simp [mapInsert, mapLookup, h3, h]
    · simp only [mapInsert, if_neg h3]
      by_cases h32 : k3 = k2 <;> simp [mapLookup, h32, ih]

theorem mapLen_mapInsert_of_mem (m : FpStore) (k : String) (v : String × Severity)
    (h : mapLookup m k ≠ none) : mapLen (mapInsert m k v) = mapLen m := by
  induction m with
  | nil => simp [mapLookup] at h
  | cons hd tl ih =>
    obtain ⟨k1, v1⟩ := hd
    by_cases h1 : k1 = k
    · simp [mapInsert, mapLen, h1]
    · simp only [mapLookup, if_neg h1] at h
      simp [mapInsert, mapLen, h1]
      exact ih h

theorem mapLen_mapInsert_of_fresh (m : FpStore) (k : String) (v : String × Severity)
    (h : mapLookup m k = none) : mapLen (mapInsert m k v) = mapLen m + 1 := by
  induction m with
  | nil => simp [mapInsert, mapLen]
  | cons hd tl ih =>
    obtain ⟨k1, v1⟩ := hd
    by_cases h1 : k1 = k
    · simp [mapLookup, h1] at h
    · simp only [mapLookup, if_neg h1] at h
      simp [mapInsert, mapLen, h1]
      exact ih h

/-! ## Scan lemmas -/

theorem scanFrom_eq_filterMap (e : DlpEngine) (buf : List Nat) :
    ∀ fuel offset, scanFrom e buf fuel offset =
      (offsetsFrom buf.length fuel offset).filterMap (specMatchAt e buf) := by
  intro fuel
  induction fuel with
  | zero => intro offset; rfl
  | succ n ih =>
    intro offset
    by_cases h : offset + CHUNK_SIZE ≤ buf.length
    · simp only [scanFrom, offsetsFrom, if_pos h, List.filterMap_cons]
      cases hl : mapLookup e.fingerprints
          (hash_chunk e ((buf.drop offset).take CHUNK_SIZE)) with
      | none => simp [specMatchAt, hl, ih]
      | some rs => simp [specMatchAt, hl, ih]
    · simp only [scanFrom, offsetsFrom, if_neg h, List.filterMap_nil]

/-- `scan_buffer` on a large-enough buffer is exactly the spec-side
per-window match sequence. -/
theorem scan_buffer_eq_spec (e : DlpEngine) (buf : List Nat)
    (h : ¬ buf.length < MIN_SCAN_SIZE) :
    scan_buffer e buf = specScanMatches e buf := by
  simp only [scan_buffer, if_neg h, specScanMatches, specWindowStarts]
  exact scanFrom_eq_filterMap e buf buf.length 0

/-- Arithmetic characterization of the generated window starts: given
enough fuel, they are exactly the stride-aligned offsets at which a full
window fits. -/
theorem mem_offsetsFrom (len : Nat) :
    ∀ fuel offset o, len ≤ offset + (CHUNK_SIZE / 2) * fuel →
      (o ∈ offsetsFrom len fuel offset ↔
        offset ≤ o ∧ (o - offset) % (CHUNK_SIZE / 2) = 0 ∧ o + CHUNK_SIZE ≤ len) := by
  intro fuel
  induction fuel with
  | zero =>
    intro offset o hfuel
    simp only [offsetsFrom, List.not_mem_nil, false_iff, CHUNK_SIZE] at hfuel ⊢
    omega
  | succ n ih =>
    intro offset o hfuel
    by_cases h : offset + CHUNK_SIZE ≤ len
    · simp only [offsetsFrom, if_pos h, List.mem_cons,
        ih (offset + CHUNK_SIZE / 2) o (by simp only [CHUNK_SIZE] at hfuel ⊢; omega)]
      simp only [CHUNK_SIZE] at h ⊢
      omega
    · simp only [CHUNK_SIZE] at h
      simp only [offsetsFrom, CHUNK_SIZE, if_neg h, List.not_mem_nil, false_iff]
      rintro ⟨h1, h2, h3⟩
      omega

/-- The window starts of a buffer of length `len` are exactly the
multiples of the stride at which a full window fits. -/
theorem mem_specWindowStarts (len o : Nat) :
    o ∈ specWindowStarts len ↔ o % (CHUNK_SIZE / 2) = 0 ∧ o + CHUNK_SIZE ≤ len := by
  have h := mem_offsetsFrom len len 0 o (by simp only [CHUNK_SIZE]; omega)
  simpa using h

/-- `should_scan` in iff form. -/
theorem should_scan_eq_true_iff (e : DlpEngine) (buf : List Nat) :
    should_scan e buf = true ↔
      MIN_SCAN_SIZE ≤ buf.length ∧
      MIN_SCAN_SIZE / 2 ≤ (buf.filter (fun b => b != 0 && b != 32)).length := by
  simp only [should_scan, MIN_SCAN_SIZE]
  split
  · simp; omega
  · split
    · simp; omega
    · simp; omega

/-- A single looked-up window with a store hit makes the scan loop emit a
match, so its result is non-empty. -/
theorem scanFrom_ne_nil_of_hit (e : DlpEngine) (buf : List Nat) (fuel offset : Nat)
    (hfit : offset + CHUNK_SIZE ≤ buf.length)
    (hhit : mapLookup e.fingerprints
      (hash_chunk e ((buf.drop offset).take CHUNK_SIZE)) ≠ none) :
    scanFrom e buf (fuel + 1) offset ≠ [] := by
  simp only [scanFrom, if_pos hfit]
  cases hl : mapLookup e.fingerprints
      (hash_chunk e ((buf.drop offset).take CHUNK_SIZE)) with
  | none => exact absurd hl hhit
  | some rs => exact List.cons_ne_nil _ _

/-! ## The claims -/

/-- C1: for every fingerprint store and every buffer for which the
pre-filter passes, `scan_buffer` returns exactly one `DlpMatch` for each
generated window (length 64, start 0, stride 32, `offset + 64 ≤ len`, the
partial tail never hashed) whose digest is in the store; each match
carries the stored rule and severity, the window's digest and the
window's start offset; matches come in window order and duplicate digests
at different offsets are all kept. All of this is the statement that
`scan_buffer` equals the spec-side `filterMap` of the per-window
candidate over the generated window starts. -/
theorem c1_scan_is_per_window_matches (e : DlpEngine) (buf : List Nat)
    (h : should_scan e buf = true) :
    scan_buffer e buf = specScanMatches e buf := by
  have hlen := (should_scan_eq_true_iff e buf).mp h
  exact scan_buffer_eq_spec e buf (by omega)

/-- Witness for C1 at a concrete engine and a 128-byte buffer of ones. -/
theorem c1_scan_is_per_window_matches_witness :
    should_scan (add_fingerprint DlpEngine.new "aa" "R" Severity.High)
      (List.replicate 128 1) = true ∧
    scan_buffer (add_fingerprint DlpEngine.new "aa" "R" Severity.High)
      (List.replicate 128 1) =
      specScanMatches (add_fingerprint DlpEngine.new "aa" "R" Severity.High)
        (List.replicate 128 1) :=
  ⟨by decide, c1_scan_is_per_window_matches _ _ (by decide)⟩

/-- C2 counterexample: the claim says a false pre-filter forces an empty
scan with no hashing; but `scan_buffer` never consults the density arm of
`should_scan`. A 128-byte all-zero buffer fails the pre-filter, yet with
the digest of the all-zero window in the store the scan returns matches. -/
theorem c2_counterexample :
    should_scan c2Engine (List.replicate 128 0) = false ∧
    scan_buffer c2Engine (List.replicate 128 0) ≠ [] := by
  refine ⟨by decide, ?_⟩
  have hb : scan_buffer c2Engine (List.replicate 128 0) =
      scanFrom c2Engine (List.replicate 128 0) (127 + 1) 0 := by
    simp [scan_buffer, MIN_SCAN_SIZE]
  rw [hb]
  apply scanFrom_ne_nil_of_hit
  · simp [CHUNK_SIZE]
  · have harg : hash_chunk c2Engine
        (((List.replicate 128 0).drop 0).take CHUNK_SIZE) =
        hash_chunk DlpEngine.new (List.replicate 64 0) := rfl
    rw [harg]
    have hself : mapLookup c2Engine.fingerprints
        (hash_chunk DlpEngine.new (List.replicate 64 0)) =
        some ("RULE_ZERO_WINDOW", Severity.Low) :=
      mapLookup_mapInsert_self [] _ _
    intro hc
    rw [hself] at hc
    exact Option.noConfusion hc

/-- C2 amended: only the size arm of the pre-filter short-circuits
`scan_buffer` (which does not call `should_scan`): when the pre-filter
fails, either the buffer is below 128 bytes and the scan is empty with no
window hashed, or the buffer is at least 128 bytes (density arm failed)
and the scan still hashes every generated window. -/
theorem c2_amended_scan_ignores_density_arm (e : DlpEngine) (buf : List Nat)
    (h : should_scan e buf = false) :
    (buf.length < MIN_SCAN_SIZE ∧ scan_buffer e buf = []) ∨
    (MIN_SCAN_SIZE ≤ buf.length ∧ scan_buffer e buf = specScanMatches e buf) := by
  by_cases hl : buf.length < MIN_SCAN_SIZE
  · exact Or.inl ⟨hl, by simp [scan_buffer, if_pos hl]⟩
  · exact Or.inr ⟨by omega, scan_buffer_eq_spec e buf hl⟩

/-- Witness for the amended C2 at the empty buffer. -/
theorem c2_amended_scan_ignores_density_arm_witness :
    should_scan DlpEngine.new ([] : List Nat) = false ∧
    ((([] : List Nat).length < MIN_SCAN_SIZE ∧
        scan_buffer DlpEngine.new ([] : List Nat) = []) ∨
      (MIN_SCAN_SIZE ≤ ([] : List Nat).length ∧
        scan_buffer DlpEngine.new ([] : List Nat) =
          specScanMatches DlpEngine.new ([] : List Nat))) :=
  ⟨by decide, c2_amended_scan_ignores_density_arm DlpEngine.new [] (by decide)⟩

/-- C3: `should_scan` is true exactly when the buffer has at least 128
bytes and at least 64 bytes other than `0x00` and space; in particular a
256-byte all-zero buffer and a 256-byte all-space buffer are rejected. -/
theorem c3_should_scan_characterization (e : DlpEngine) (buf : List Nat) :
    (should_scan e buf = true ↔
      128 ≤ buf.length ∧
      64 ≤ (buf.filter (fun b => b != 0 && b != 32)).length) ∧
    should_scan e (List.replicate 256 0) = false ∧
    should_scan e (List.replicate 256 32) = false := by
  refine ⟨?_, ?_, ?_⟩
  · simpa [MIN_SCAN_SIZE] using should_scan_eq_true_iff e buf
  · exact (by decide : should_scan DlpEngine.new (List.replicate 256 0) = false)
  · exact (by decide : should_scan DlpEngine.new (List.replicate 256 32) = false)

/-- C4 counterexample: the claim promises a generated window inside every
contiguous region of at least 64 bytes; the 64-byte region starting at
offset 1 of a 128-byte buffer contains none (the starts are 0, 32, 64). -/
theorem c4_counterexample :
    64 ≤ 64 ∧ 1 + 64 ≤ (List.replicate 128 1 : List Nat).length ∧
    ¬ ∃ o ∈ specWindowStarts (List.replicate 128 1 : List Nat).length,
        1 ≤ o ∧ o + CHUNK_SIZE ≤ 1 + 64 := by
  decide

/-- C4 amended: any contiguous region of at least 95 bytes (window length
64 plus stride 32 minus 1 — the least bound that works at every
alignment) contains at least one generated window in full, regardless of
its absolute offset. -/
theorem c4_amended_region_95_contains_window (buf : List Nat) (k m : Nat)
    (hm : 95 ≤ m) (hin : k + m ≤ buf.length) :
    ∃ o ∈ specWindowStarts buf.length, k ≤ o ∧ o + CHUNK_SIZE ≤ k + m := by
  refine ⟨32 * ((k + 31) / 32), ?_, ?_, ?_⟩
  · rw [mem_specWindowStarts]
    simp only [CHUNK_SIZE]
    constructor
    · omega
    · omega
  · omega
  · simp only [CHUNK_SIZE]
    omega

/-- Witness for the amended C4: a 95-byte region at offset 1 of a
128-byte buffer. -/
theorem c4_amended_region_95_contains_window_witness :
    95 ≤ 95 ∧ 1 + 95 ≤ (List.replicate 128 1 : List Nat).length ∧
    ∃ o ∈ specWindowStarts (List.replicate 128 1 : List Nat).length,
      1 ≤ o ∧ o + CHUNK_SIZE ≤ 1 + 95 :=
  ⟨by decide, by decide,
    c4_amended_region_95_contains_window (List.replicate 128 1) 1 95
      (by decide) (by decide)⟩

/-- C5: buffers below 128 bytes are rejected by `should_scan` and scanned
to the empty match list; undersized input signals no failure. -/
theorem c5_small_buffers_rejected (e : DlpEngine) (buf : List Nat)
    (h : buf.length < MIN_SCAN_SIZE) :
    should_scan e buf = false ∧ scan_buffer e buf = [] :=
  ⟨by simp [should_scan, if_pos h], by simp [scan_buffer, if_pos h]⟩

/-- Witness for C5 at a 3-byte buffer. -/
theorem c5_small_buffers_rejected_witness :
    ([7, 8, 9] : List Nat).length < MIN_SCAN_SIZE ∧
    should_scan DlpEngine.new [7, 8, 9] = false ∧
    scan_buffer DlpEngine.new [7, 8, 9] = [] :=
  ⟨by decide, c5_small_buffers_rejected DlpEngine.new [7, 8, 9] (by decide)⟩

/-- C6: the store is last-writer-wins on a digest — after two inserts of
the same digest a lookup returns the second binding — and the count
treats digests as distinct keys: re-inserting a present digest keeps the
count, inserting a fresh digest raises it by one. -/
theorem c6_store_last_writer_wins (e : DlpEngine) (d r1 r2 : String)
    (s1 s2 : Severity) :
    mapLookup (add_fingerprint (add_fingerprint e d r1 s1) d r2 s2).fingerprints d =
      some (r2, s2) ∧
    (mapLookup e.fingerprints d ≠ none →
      fingerprint_count (add_fingerprint e d r2 s2) = fingerprint_count e) ∧
    (mapLookup e.fingerprints d = none →
      fingerprint_count (add_fingerprint e d r2 s2) = fingerprint_count e + 1) := by
  refine ⟨mapLookup_mapInsert_self _ _ _, ?_, ?_⟩
  · intro h
    exact mapLen_mapInsert_of_mem e.fingerprints d (r2, s2) h
  · intro h
    exact mapLen_mapInsert_of_fresh e.fingerprints d (r2, s2) h

/-- Witness for C6 at concrete digests and severities. -/
theorem c6_store_last_writer_wins_witness :
    mapLookup (add_fingerprint (add_fingerprint DlpEngine.new "d0" "r1" Severity.Low)
      "d0" "r2" Severity.High).fingerprints "d0" = some ("r2", Severity.High) ∧
    mapLookup (add_fingerprint DlpEngine.new "d0" "r1" Severity.Low).fingerprints "d0" ≠
      none ∧
    fingerprint_count (add_fingerprint (add_fingerprint DlpEngine.new "d0" "r1"
      Severity.Low) "d0" "r2" Severity.High) =
      fingerprint_count (add_fingerprint DlpEngine.new "d0" "r1" Severity.Low) ∧
    mapLookup DlpEngine.new.fingerprints "d0" = none ∧
    fingerprint_count (add_fingerprint DlpEngine.new "d0" "r2" Severity.High) =
      fingerprint_count DlpEngine.new + 1 :=
  ⟨(c6_store_last_writer_wins DlpEngine.new "d0" "r1" "r2" Severity.Low Severity.High).1,
   by decide,
   (c6_store_last_writer_wins (add_fingerprint DlpEngine.new "d0" "r1" Severity.Low)
     "d0" "r1" "r2" Severity.Low Severity.High).2.1 (by decide),
   by decide,
   (c6_store_last_writer_wins DlpEngine.new "d0" "r1" "r2" Severity.Low
     Severity.High).2.2 (by decide)⟩

/-- C7: hashing and scanning are deterministic — two engines agreeing on
the algorithm toggle and the store contents hash every window to the same
digest and scan every buffer to the same match sequence (hence the same
length and the same fields at every position). -/
theorem c7_hash_and_scan_deterministic (e1 e2 : DlpEngine) (w buf : List Nat)
    (hflag : e1.use_blake3 = e2.use_blake3)
    (hst : e1.fingerprints = e2.fingerprints) :
    hash_chunk e1 w = hash_chunk e2 w ∧
    scan_buffer e1 buf = scan_buffer e2 buf ∧
    (scan_buffer e1 buf).length = (scan_buffer e2 buf).length := by
  obtain ⟨f1, b1⟩ := e1
  obtain ⟨f2, b2⟩ := e2
  simp only at hflag hst
  subst hflag
  subst hst
  exact ⟨rfl, rfl, rfl⟩

/-- Witness for C7: two syntactically different but equal engines. -/
theorem c7_hash_and_scan_deterministic_witness :
    hash_chunk DlpEngine.new [1, 2, 3] = hash_chunk (DlpEngine.mk [] true) [1, 2, 3] ∧
    scan_buffer DlpEngine.new (List.replicate 128 1) =
      scan_buffer (DlpEngine.mk [] true) (List.replicate 128 1) ∧
    (scan_buffer DlpEngine.new (List.replicate 128 1)).length =
      (scan_buffer (DlpEngine.mk [] true) (List.replicate 128 1)).length :=
  c7_hash_and_scan_deterministic DlpEngine.new (DlpEngine.mk [] true)
    [1, 2, 3] (List.replicate 128 1) rfl rfl

/-- C8: `scan_buffer` and `should_scan` are pure observations — the
engine returned by the state-passing rendering of either call is the one
passed in, so the store's count and every lookup are unchanged. -/
theorem c8_scan_and_should_scan_pure (e : DlpEngine) (buf : List Nat) (d : String) :
    (scan_buffer_call e buf).2 = e ∧
    fingerprint_count (scan_buffer_call e buf).2 = fingerprint_count e ∧
    mapLookup (scan_buffer_call e buf).2.fingerprints d = mapLookup e.fingerprints d ∧
    (should_scan_call e buf).2 = e ∧
    fingerprint_count (should_scan_call e buf).2 = fingerprint_count e ∧
    mapLookup (should_scan_call e buf).2.fingerprints d = mapLookup e.fingerprints d :=
  ⟨rfl, rfl, rfl, rfl, rfl, rfl⟩

/-- C9: `load_fingerprints_from_policy` ignores its path, always returns
`Ok`, inserts exactly the two fixed test fingerprints, and leaves a fresh
engine with count 2. -/
theorem c9_load_policy_fixed_fingerprints (e : DlpEngine) (p1 p2 : String) :
    load_fingerprints_from_policy e p1 =
      Except.ok (add_fingerprint (add_fingerprint e "deadbeef0000" "TEST_SSN"
        Severity.High) "cafebabe0000" "TEST_CCN" Severity.Critical) ∧
    load_fingerprints_from_policy e p1 = load_fingerprints_from_policy e p2 ∧
    (∀ e2, load_fingerprints_from_policy e p1 = Except.ok e2 →
      mapLookup e2.fingerprints "deadbeef0000" = some ("TEST_SSN", Severity.High) ∧
      mapLookup e2.fingerprints "cafebabe0000" = some ("TEST_CCN", Severity.Critical)) ∧
    (∀ e2, load_fingerprints_from_policy DlpEngine.new p1 = Except.ok e2 →
      fingerprint_count e2 = 2) := by
  refine ⟨rfl, rfl, ?_, ?_⟩
  · intro e2 h
    have he2 : e2 = add_fingerprint (add_fingerprint e "deadbeef0000" "TEST_SSN"
        Severity.High) "cafebabe0000" "TEST_CCN" Severity.Critical := by
      simpa [load_fingerprints_from_policy] using h.symm
    subst he2
    constructor
    · rw [show (add_fingerprint (add_fingerprint e "deadbeef0000" "TEST_SSN"
          Severity.High) "cafebabe0000" "TEST_CCN" Severity.Critical).fingerprints =
          mapInsert (mapInsert e.fingerprints "deadbeef0000" ("TEST_SSN", Severity.High))
            "cafebabe0000" ("TEST_CCN", Severity.Critical) from rfl]
      rw [mapLookup_mapInsert_ne _ _ _ _ (by decide)]
      exact mapLookup_mapInsert_self _ _ _
    · exact mapLookup_mapInsert_self _ _ _
  · intro e2 h
    have he2 : e2 = add_fingerprint (add_fingerprint DlpEngine.new "deadbeef0000"
        "TEST_SSN" Severity.High) "cafebabe0000" "TEST_CCN" Severity.Critical := by
      simpa [load_fingerprints_from_policy] using h.symm
    subst he2
    decide

/-- Witness for C9: loading into a fresh engine yields the two-entry
store. -/
theorem c9_load_policy_fixed_fingerprints_witness :
    load_fingerprints_from_policy DlpEngine.new "some/path.json" =
      Except.ok (add_fingerprint (add_fingerprint DlpEngine.new "deadbeef0000"
        "TEST_SSN" Severity.High) "cafebabe0000" "TEST_CCN" Severity.Critical) ∧
    fingerprint_count (add_fingerprint (add_fingerprint DlpEngine.new "deadbeef0000"
      "TEST_SSN" Severity.High) "cafebabe0000" "TEST_CCN" Severity.Critical) = 2 :=
  ⟨rfl, (c9_load_policy_fixed_fingerprints DlpEngine.new "some/path.json"
    "other").2.2.2 _ rfl⟩

/-- C10: `scan_file` returns `Ok` with the empty match sequence for every
store and path — it reads nothing, hashes nothing, reports nothing and
never errors. -/
theorem c10_scan_file_ok_empty (e : DlpEngine) (p : String) :
    scan_file e p = Except.ok ([] : List DlpMatch) := rfl

end EdrDlp
